import Mathlib

/-!
Verification of the PhabricatorClient HTTP API wrapper
(phable_cli/phabricator.py) against its natural-language specification.

The embedding below mirrors the source:
JSON values become the inductive Val; Python dictionaries become ordered
association lists with Python assignment/update semantics (dictInsert,
dictUpdate); the remote service is an abstract mapping from request path
and form body to an HTTP response; exceptions become Except values.
-/

namespace Phable

/-- JSON-like values: the untyped data flowing through the client. -/
inductive Val where
  | vNull : Val
  | vBool : Bool → Val
  | vInt : Int → Val
  | vStr : String → Val
  | vList : List Val → Val
  | vDict : List (String × Val) → Val

/-- Python truthiness for the values above. -/
def truthy : Val → Bool
  | .vNull => false
  | .vBool b => b
  | .vInt n => n != 0
  | .vStr s => s != ""
  | .vList xs => !xs.isEmpty
  | .vDict kvs => !kvs.isEmpty

/-- Lookup in a Python mapping represented as an ordered association list
(keys are unique in every mapping the program builds). -/
def dictGet : List (String × Val) → String → Option Val
  | [], _ => none
  | (k1, v) :: rest, k => if k1 = k then some v else dictGet rest k

/-- Python dict item assignment, d[k] = v: overwrite in place when the key
is present, append otherwise. -/
def dictInsert (d : List (String × Val)) (k : String) (v : Val) : List (String × Val) :=
  if d.any (fun p => decide (p.1 = k)) then
    d.map (fun p => if p.1 = k then (k, v) else p)
  else
    d ++ [(k, v)]

/-- Python dict update (d |= ps, or a loop of item assignments): apply the
assignments in order. -/
def dictUpdate (d : List (String × Val)) (ps : List (String × Val)) : List (String × Val) :=
  ps.foldl (fun acc p => dictInsert acc p.1 p.2) d

/-- Character of a single decimal digit. -/
def digitChr (d : Nat) : Char := Char.ofNat (48 + d)

/-- Fuel-driven decimal digit expansion; the fuel is always sufficient at the
call site in decDigits. -/
def decDigitsFuel : Nat → Nat → List Char
  | 0, _ => []
  | fuel + 1, n =>
    if n < 10 then [digitChr n]
    else decDigitsFuel fuel (n / 10) ++ [digitChr (n % 10)]

/-- Decimal digits of a natural number, most significant digit first. -/
def decDigits (n : Nat) : List Char := decDigitsFuel (n + 1) n

/-- Decimal rendering of a natural number, as a format string renders an
enumeration index. -/
def decRepr (n : Nat) : String := String.mk (decDigits n)

/-- Strip all trailing slash characters from a string, as the constructor does
to the configured URL. -/
def rstrip_slash (s : String) : String :=
  String.mk ((s.data.reverse.dropWhile (fun c => decide (c = '/'))).reverse)

/-- Configuration read at construction time: the URL and token environment
values. -/
structure ClientConfig where
  url : String
  token : String

/-- Outcome of constructing the client: the stored base URL and token, or the
configuration error. -/
inductive InitResult where
  | ok : String → String → InitResult
  | valueError : InitResult

/-- Constructor body: store the URL with trailing slashes stripped and the
token, then fail when either stored value is empty. -/
def client_init (cfg : ClientConfig) : InitResult :=
  let base_url := rstrip_slash cfg.url
  if base_url = "" ∨ cfg.token = "" then InitResult.valueError
  else InitResult.ok base_url cfg.token

/-- An HTTP response: numeric status code and decoded JSON body. -/
structure HttpResponse where
  status : Nat
  body : Val

/-- Failure modes a call can surface: the wrapped transport error (carrying
the status that raised), the API-level error (carrying the full decoded
body), an escaped key lookup error, or an escaped type error. -/
inductive PyErr where
  | transport : Nat → PyErr
  | api : Val → PyErr
  | keyError : String → PyErr
  | typeError : PyErr

/-- The remote service, abstracted as a mapping from request path and form
body to the HTTP response it produces. -/
def Remote : Type := String → List (String × Val) → HttpResponse

/-- Form body assembled by the request helper: the token and output format
first, then the call-specific parameters merged in. -/
def make_request_body (token : String) (params : List (String × Val)) : List (String × Val) :=
  dictUpdate [("api.token", Val.vStr token), ("output", Val.vStr "json")] params

/-- Statuses on which raise_for_status raises (client and server errors). -/
def raise_for_status_fails (status : Nat) : Bool :=
  decide (400 ≤ status) && decide (status < 600)

/-- Envelope validation performed on a response: raise_for_status first, then
the error-code check on the decoded body. -/
def handle_response (resp : HttpResponse) : Except PyErr Val :=
  if raise_for_status_fails resp.status then
    Except.error (PyErr.transport resp.status)
  else
    match resp.body with
    | Val.vDict kvs =>
      match dictGet kvs "error_code" with
      | none => Except.error (PyErr.keyError "error_code")
      | some ec =>
        if truthy ec then Except.error (PyErr.api resp.body)
        else Except.ok resp.body
    | _ => Except.error PyErr.typeError

/-- The request helper: build the form body, perform the request, validate
the response envelope, return the decoded body. -/
def _make_request (remote : Remote) (token : String) (path : String)
    (params : List (String × Val)) : Except PyErr Val :=
  handle_response (remote path (make_request_body token params))

/-- Key of the transaction type parameter for entry index i. -/
def typeKey (i : Nat) : String := "transactions[" ++ decRepr i ++ "][type]"

/-- Key of the scalar transaction value parameter for entry index i. -/
def valueKey (i : Nat) : String := "transactions[" ++ decRepr i ++ "][value]"

/-- Key of the j-th indexed sub-entry of the transaction value for entry
index i. -/
def valueIdxKey (i j : Nat) : String :=
  "transactions[" ++ decRepr i ++ "][value][" ++ decRepr j ++ "]"

/-- Assignments performed for the indexed sub-entries of a sequence-valued
transaction, enumerating from j. -/
def valueWrites (i : Nat) : Nat → List Val → List (String × Val)
  | _, [] => []
  | j, v :: rest => (valueIdxKey i j, v) :: valueWrites i (j + 1) rest

/-- Assignments performed for the value of a params entry: the expanded
sub-entries when it is a sequence, the single value key otherwise. -/
def entryValueWrites (i : Nat) : Val → List (String × Val)
  | Val.vList xs => valueWrites i 0 xs
  | v => [(valueKey i, v)]

/-- Assignments performed for a single params entry: the type key, then the
value assignments. -/
def entryWrites (i : Nat) (key : String) (value : Val) : List (String × Val) :=
  (typeKey i, Val.vStr key) :: entryValueWrites i value

/-- Assignments performed while enumerating the params mapping from entry
index i. -/
def transactionWritesFrom (i : Nat) : List (String × Val) → List (String × Val)
  | [] => []
  | (key, value) :: rest => entryWrites i key value ++ transactionWritesFrom (i + 1) rest

/-- Raw params built by create_or_edit_task: the transaction assignments in
enumeration order, then the edit target when the task id argument is truthy
(a non-none, nonzero integer). -/
def create_or_edit_task_raw_params (params : List (String × Val))
    (task_id : Option Int) : List (String × Val) :=
  let raw := dictUpdate [] (transactionWritesFrom 0 params)
  match task_id with
  | some tid => if tid != 0 then dictInsert raw "objectIdentifier" (Val.vInt tid) else raw
  | none => raw

/-- Create or edit a Maniphest task. -/
def create_or_edit_task (remote : Remote) (token : String)
    (params : List (String × Val)) (task_id : Option Int) : Except PyErr Val :=
  _make_request remote token "maniphest.edit" (create_or_edit_task_raw_params params task_id)

/-- Return the first element of a result set, or nothing when it is empty. -/
def _first {α : Type} : List α → Option α
  | [] => none
  | x :: _ => some x

/-- Python indexing of a decoded JSON value with a string key. -/
def pyIndex (v : Val) (k : String) : Except PyErr Val :=
  match v with
  | Val.vDict kvs =>
    match dictGet kvs k with
    | some w => Except.ok w
    | none => Except.error (PyErr.keyError k)
  | _ => Except.error PyErr.typeError

/-- Extraction of the result and then data members from a decoded body,
requiring the data member to be a JSON array. -/
def resultData (body : Val) : Except PyErr (List Val) := do
  let r ← pyIndex body "result"
  let d ← pyIndex r "data"
  match d with
  | Val.vList xs => Except.ok xs
  | _ => Except.error PyErr.typeError

/-- Return details of the parent task of the given subtask id. -/
def find_parent_task (remote : Remote) (token : String) (subtask_id : Int) :
    Except PyErr (Option Val) := do
  let body ← _make_request remote token "maniphest.search"
    [("constraints[subtaskIDs][0]", Val.vInt subtask_id)]
  let data ← resultData body
  Except.ok (_first data)

/-- Return details of the user with the given username. -/
def find_user_by_username (remote : Remote) (token : String) (username : String) :
    Except PyErr (Option Val) := do
  let body ← _make_request remote token "user.search"
    [("constraints[usernames][0]", Val.vStr username)]
  let data ← resultData body
  Except.ok (_first data)

/-- User cache lookup: association list search keyed by user identifier. -/
def cacheGet : List (String × Option Val) → String → Option (Option Val)
  | [], _ => none
  | (k1, v) :: rest, k => if k1 = k then some v else cacheGet rest k

/-- Mutable client state relevant to show_user: the memoized user cache and a
count of requests performed. -/
structure ClientState where
  user_cache : List (String × Option Val)
  request_count : Nat

/-- The body of show_user without the memoization wrapper: one request, then
first-or-none extraction. -/
def show_user_uncached (remote : Remote) (token : String) (phid : String) :
    Except PyErr (Option Val) := do
  let body ← _make_request remote token "user.search"
    [("constraints[phids][0]", Val.vStr phid)]
  let data ← resultData body
  Except.ok (_first data)

/-- show_user with the memoization wrapper: answer from the cache when
possible, otherwise perform the request and record the result on success
(a raising call caches nothing). -/
def show_user (remote : Remote) (token : String) (st : ClientState) (phid : String) :
    Except PyErr (Option Val) × ClientState :=
  match cacheGet st.user_cache phid with
  | some cached => (Except.ok cached, st)
  | none =>
    match show_user_uncached remote token phid with
    | Except.ok user =>
      (Except.ok user,
        { user_cache := st.user_cache ++ [(phid, user)],
          request_count := st.request_count + 1 })
    | Except.error e =>
      (Except.error e, { st with request_count := st.request_count + 1 })

/-- Constraint assignments built by show_projects while enumerating the
project identifiers from index i. -/
def show_projects_writes_from (i : Nat) : List String → List (String × Val)
  | [] => []
  | phid :: rest =>
    ("constraints[phids][" ++ decRepr i ++ "]", Val.vStr phid) ::
      show_projects_writes_from (i + 1) rest

/-- The params dict built by show_projects. -/
def show_projects_raw_params (phids : List String) : List (String × Val) :=
  dictUpdate [] (show_projects_writes_from 0 phids)

/-- Show details of the given projects. -/
def show_projects (remote : Remote) (token : String) (phids : List String) :
    Except PyErr (List Val) := do
  let body ← _make_request remote token "project.search" (show_projects_raw_params phids)
  resultData body

/-- Return the details of each column in the given project. -/
def list_project_columns (remote : Remote) (token : String) (project_phid : String) :
    Except PyErr (List Val) := do
  let body ← _make_request remote token "project.column.search"
    [("constraints[projects][0]", Val.vStr project_phid)]
  resultData body

/-- The scan of get_project_current_milestone over the listed columns in
order: return the first column whose fields hold a truthy proxyPHID and a
falsy isHidden, with Python short-circuit evaluation of the condition. -/
def milestone_scan : List Val → Except PyErr (Option Val)
  | [] => Except.ok none
  | column :: rest => do
    let fields1 ← pyIndex column "fields"
    let proxy ← pyIndex fields1 "proxyPHID"
    if truthy proxy then do
      let fields2 ← pyIndex column "fields"
      let hidden ← pyIndex fields2 "isHidden"
      if truthy hidden then milestone_scan rest else Except.ok (some column)
    else milestone_scan rest

/-- Return the first non-hidden column associated with a subproject. -/
def get_project_current_milestone (remote : Remote) (token : String) (project_phid : String) :
    Except PyErr (Option Val) := do
  let columns ← list_project_columns remote token project_phid
  milestone_scan columns

/-- A column record exposing the two fields the milestone scan consults. -/
def wellFormedColumn (c : Val) : Bool :=
  match c with
  | Val.vDict kvs =>
    match dictGet kvs "fields" with
    | some (Val.vDict f) => (dictGet f "proxyPHID").isSome && (dictGet f "isHidden").isSome
    | _ => false
  | _ => false

/-- The specification predicate on a column: its fields mark it as a
subproject proxy and not hidden. -/
def milestonePred (c : Val) : Bool :=
  match c with
  | Val.vDict kvs =>
    match dictGet kvs "fields" with
    | some (Val.vDict f) =>
      (match dictGet f "proxyPHID" with
       | some p => truthy p
       | none => false)
        && !(match dictGet f "isHidden" with
             | some h => truthy h
             | none => true)
    | _ => false
  | _ => false

/-- A character that renders a single decimal digit. -/
def IsDigitCh (c : Char) : Prop := ∃ d, d < 10 ∧ c = digitChr d

/-- The keys of an association list are pairwise distinct (every mapping the
program builds satisfies this). -/
def NodupKeys (d : List (String × Val)) : Prop :=
  List.Pairwise (fun p q => p.1 ≠ q.1) d

/-- A remote service that answers every request with the same response; used
to instantiate theorems at concrete inputs. -/
def constRemote (r : HttpResponse) : Remote := fun _ _ => r

/-- A successful response body wrapping the given data array in the standard
result envelope with a null error code. -/
def okBody (data : List Val) : Val :=
  Val.vDict [("error_code", Val.vNull), ("result", Val.vDict [("data", Val.vList data)])]

theorem data_append (s t : String) : (s ++ t).data = s.data ++ t.data := by
  cases s; cases t; rfl

theorem str_ne_of_data {s t : String} (h : s.data ≠ t.data) : s ≠ t :=
  fun he => h (by rw [he])

theorem digitChr_inj : ∀ a, a < 10 → ∀ b, b < 10 → digitChr a = digitChr b → a = b := by
  decide

theorem digitChr_ne_rbracket : ∀ a, a < 10 → digitChr a ≠ ']' := by
  decide

theorem decDigitsFuel_congr : ∀ f1 : Nat, ∀ f2 n : Nat, n < f1 → n < f2 →
    decDigitsFuel f1 n = decDigitsFuel f2 n := by
  intro f1
  induction f1 with
  | zero => intro f2 n h1 _; omega
  | succ f ih =>
    intro f2 n h1 h2
    match f2, h2 with
    | f2' + 1, _ =>
      show (if n < 10 then _ else _) = (if n < 10 then _ else _)
      by_cases h10 : n < 10
      · simp [h10]
      · simp only [h10, if_false]
        have hdm := Nat.div_add_mod n 10
        have hm : n % 10 < 10 := Nat.mod_lt _ (by omega)
        have hd1 : 1 ≤ n / 10 := (Nat.one_le_div_iff (by omega)).mpr (by omega)
        have hrec : n / 10 < f ∧ n / 10 < f2' := by omega
        rw [ih f2' (n / 10) hrec.1 hrec.2]

theorem decDigits_eq (n : Nat) :
    decDigits n = if n < 10 then [digitChr n]
      else decDigits (n / 10) ++ [digitChr (n % 10)] := by
  show (if n < 10 then _ else decDigitsFuel n (n / 10) ++ _) = _
  by_cases h10 : n < 10
  · simp [h10]
  · simp only [h10, if_false]
    have hdm := Nat.div_add_mod n 10
    have hm : n % 10 < 10 := Nat.mod_lt _ (by omega)
    have hd1 : 1 ≤ n / 10 := (Nat.one_le_div_iff (by omega)).mpr (by omega)
    rw [decDigits, decDigitsFuel_congr n (n / 10 + 1) (n / 10) (by omega) (by omega)]

theorem decDigits_ne_nil (n : Nat) : decDigits n ≠ [] := by
  rw [decDigits_eq]
  by_cases h10 : n < 10 <;> simp [h10]

theorem decDigits_digits (n : Nat) : ∀ c ∈ decDigits n, IsDigitCh c := by
  induction n using Nat.strong_induction_on with
  | _ n ih =>
    rw [decDigits_eq]
    by_cases h10 : n < 10
    · simp only [h10, if_true, List.mem_singleton]
      rintro c rfl
      exact ⟨n, h10, rfl⟩
    · simp only [h10, if_false, List.mem_append, List.mem_singleton]
      rintro c (hc | rfl)
      · exact ih (n / 10) (Nat.div_lt_self (by omega) (by omega)) c hc
      · exact ⟨n % 10, Nat.mod_lt _ (by omega), rfl⟩

theorem append_singleton_inj {as bs : List Char} {x y : Char}
    (h : as ++ [x] = bs ++ [y]) : as = bs ∧ x = y := by
  have h2 := congrArg List.reverse h
  simp at h2
  exact ⟨h2.2, h2.1⟩

theorem decDigits_injective : ∀ m n : Nat, decDigits m = decDigits n → m = n := by
  intro m
  induction m using Nat.strong_induction_on with
  | _ m ih =>
    intro n h
    rw [decDigits_eq m, decDigits_eq n] at h
    by_cases hm : m < 10 <;> by_cases hn : n < 10
    · simp only [hm, hn, if_true] at h
      injection h with h1 _
      exact digitChr_inj m hm n hn h1
    · simp only [hm, hn, if_true, if_false] at h
      have hl := congrArg List.length h
      simp only [List.length_append, List.length_singleton] at hl
      exact absurd (List.eq_nil_of_length_eq_zero (by omega)) (decDigits_ne_nil (n / 10))
    · simp only [hm, hn, if_true, if_false] at h
      have hl := congrArg List.length h
      simp only [List.length_append, List.length_singleton] at hl
      exact absurd (List.eq_nil_of_length_eq_zero (by omega)) (decDigits_ne_nil (m / 10))
    · simp only [hm, hn, if_false] at h
      obtain ⟨hpre, hdig⟩ := append_singleton_inj h
      have hdiv : m / 10 = n / 10 :=
        ih (m / 10) (Nat.div_lt_self (by omega) (by omega)) (n / 10) hpre
      have hmod : m % 10 = n % 10 :=
        digitChr_inj (m % 10) (Nat.mod_lt _ (by omega)) (n % 10) (Nat.mod_lt _ (by omega)) hdig
      omega

theorem decRepr_data (n : Nat) : (decRepr n).data = decDigits n := rfl

theorem decRepr_injective {m n : Nat} (h : decRepr m = decRepr n) : m = n :=
  decDigits_injective m n (by
    have := congrArg String.data h
    rwa [decRepr_data, decRepr_data] at this)

theorem digits_sep_cancel : ∀ d1 : List Char, ∀ d2 r1 r2 : List Char,
    (∀ c ∈ d1, IsDigitCh c) → (∀ c ∈ d2, IsDigitCh c) →
    d1 ++ ']' :: r1 = d2 ++ ']' :: r2 → d1 = d2 ∧ r1 = r2 := by
  intro d1
  induction d1 with
  | nil =>
    intro d2 r1 r2 _ hd2 h
    match d2 with
    | [] =>
      injection h with _ h2
      exact ⟨rfl, h2⟩
    | c :: d2' =>
      injection h with h1 _
      obtain ⟨d, hd, rfl⟩ := hd2 c (by simp)
      exact absurd h1.symm (digitChr_ne_rbracket d hd)
  | cons c1 d1' ih =>
    intro d2 r1 r2 hd1 hd2 h
    match d2 with
    | [] =>
      injection h with h1 _
      obtain ⟨d, hd, rfl⟩ := hd1 c1 (by simp)
      exact absurd h1 (digitChr_ne_rbracket d hd)
    | c2 :: d2' =>
      injection h with h1 h2
      obtain ⟨hd, hr⟩ := ih d2' r1 r2 (fun c hc => hd1 c (by simp [hc]))
        (fun c hc => hd2 c (by simp [hc])) h2
      exact ⟨by rw [h1, hd], hr⟩

theorem typeKey_data (i : Nat) :
    (typeKey i).data = "transactions[".data ++ (decDigits i ++ ']' :: "[type]".data) := by
  show (("transactions[" ++ decRepr i) ++ "][type]").data = _
  rw [data_append, data_append, decRepr_data, List.append_assoc]

theorem valueKey_data (i : Nat) :
    (valueKey i).data = "transactions[".data ++ (decDigits i ++ ']' :: "[value]".data) := by
  show (("transactions[" ++ decRepr i) ++ "][value]").data = _
  rw [data_append, data_append, decRepr_data, List.append_assoc]

theorem valueIdxKey_data (i j : Nat) :
    (valueIdxKey i j).data =
      "transactions[".data ++ (decDigits i ++ ']' :: ("[value][".data ++ (decDigits j ++ [']']))) := by
  show (((("transactions[" ++ decRepr i) ++ "][value][") ++ decRepr j) ++ "]").data = _
  rw [data_append, data_append, data_append, data_append, decRepr_data, decRepr_data]
  simp only [List.append_assoc]
  rfl

theorem key_parts {a b : Nat} {s t : List Char}
    (h : "transactions[".data ++ (decDigits a ++ ']' :: s) =
         "transactions[".data ++ (decDigits b ++ ']' :: t)) :
    a = b ∧ s = t := by
  have h2 := List.append_cancel_left h
  obtain ⟨hd, hst⟩ := digits_sep_cancel _ _ _ _ (decDigits_digits a) (decDigits_digits b) h2
  exact ⟨decDigits_injective a b hd, hst⟩

theorem typeKey_inj {i i' : Nat} (h : typeKey i = typeKey i') : i = i' := by
  have hd := congrArg String.data h
  rw [typeKey_data, typeKey_data] at hd
  exact (key_parts hd).1

theorem valueKey_inj {i i' : Nat} (h : valueKey i = valueKey i') : i = i' := by
  have hd := congrArg String.data h
  rw [valueKey_data, valueKey_data] at hd
  exact (key_parts hd).1

theorem valueIdxKey_inj {i j i' j' : Nat} (h : valueIdxKey i j = valueIdxKey i' j') :
    i = i' ∧ j = j' := by
  have hd := congrArg String.data h
  rw [valueIdxKey_data, valueIdxKey_data] at hd
  obtain ⟨hi, hs⟩ := key_parts hd
  have h2 := List.append_cancel_left hs
  have h3 := append_singleton_inj h2
  exact ⟨hi, decDigits_injective _ _ h3.1⟩

theorem typeKey_ne_valueKey (i i' : Nat) : typeKey i ≠ valueKey i' := by
  intro h
  have hd := congrArg String.data h
  rw [typeKey_data, valueKey_data] at hd
  exact absurd (key_parts hd).2 (by decide)

theorem typeKey_ne_valueIdxKey (i i' j : Nat) : typeKey i ≠ valueIdxKey i' j := by
  intro h
  have hd := congrArg String.data h
  rw [typeKey_data, valueIdxKey_data] at hd
  have hs := (key_parts hd).2
  injection hs with h1 h2
  injection h2 with h3 _
  exact absurd h3 (by decide)

theorem valueKey_ne_valueIdxKey (i i' j : Nat) : valueKey i ≠ valueIdxKey i' j := by
  intro h
  have hd := congrArg String.data h
  rw [valueKey_data, valueIdxKey_data] at hd
  have hs := (key_parts hd).2
  have hl := congrArg List.length hs
  have l7 : ("[value]".data).length = 7 := rfl
  have l8 : ("[value][".data).length = 8 := rfl
  rw [List.length_append, List.length_append, l7, l8, List.length_singleton] at hl
  omega

theorem trans_data_cons (r : List Char) :
    "transactions[".data ++ r = 't' :: ("ransactions[".data ++ r) := rfl

theorem transData_ne_apiToken (r : List Char) : "transactions[".data ++ r ≠ "api.token".data := by
  intro h
  rw [trans_data_cons] at h
  injection h with h1 _
  exact absurd h1 (by decide)

theorem transData_ne_output (r : List Char) : "transactions[".data ++ r ≠ "output".data := by
  intro h
  rw [trans_data_cons] at h
  injection h with h1 _
  exact absurd h1 (by decide)

theorem transData_ne_objId (r : List Char) :
    "transactions[".data ++ r ≠ "objectIdentifier".data := by
  intro h
  rw [trans_data_cons] at h
  injection h with h1 _
  exact absurd h1 (by decide)

theorem typeKey_ne_objId (i : Nat) : typeKey i ≠ "objectIdentifier" := by
  apply str_ne_of_data
  rw [typeKey_data]
  exact transData_ne_objId _

theorem valueKey_ne_objId (i : Nat) : valueKey i ≠ "objectIdentifier" := by
  apply str_ne_of_data
  rw [valueKey_data]
  exact transData_ne_objId _

theorem valueIdxKey_ne_objId (i j : Nat) : valueIdxKey i j ≠ "objectIdentifier" := by
  apply str_ne_of_data
  rw [valueIdxKey_data]
  exact transData_ne_objId _

theorem typeKey_ne_apiToken (i : Nat) : typeKey i ≠ "api.token" := by
  apply str_ne_of_data
  rw [typeKey_data]
  exact transData_ne_apiToken _

theorem valueKey_ne_apiToken (i : Nat) : valueKey i ≠ "api.token" := by
  apply str_ne_of_data
  rw [valueKey_data]
  exact transData_ne_apiToken _

theorem valueIdxKey_ne_apiToken (i j : Nat) : valueIdxKey i j ≠ "api.token" := by
  apply str_ne_of_data
  rw [valueIdxKey_data]
  exact transData_ne_apiToken _

theorem typeKey_ne_output (i : Nat) : typeKey i ≠ "output" := by
  apply str_ne_of_data
  rw [typeKey_data]
  exact transData_ne_output _

theorem valueKey_ne_output (i : Nat) : valueKey i ≠ "output" := by
  apply str_ne_of_data
  rw [valueKey_data]
  exact transData_ne_output _

theorem valueIdxKey_ne_output (i j : Nat) : valueIdxKey i j ≠ "output" := by
  apply str_ne_of_data
  rw [valueIdxKey_data]
  exact transData_ne_output _

theorem dictGet_eq_none {d : List (String × Val)} {k : String}
    (h : ∀ p ∈ d, p.1 ≠ k) : dictGet d k = none := by
  induction d with
  | nil => rfl
  | cons p rest ih =>
    obtain ⟨k1, v⟩ := p
    have hk : k1 ≠ k := h (k1, v) (by simp)
    simp only [dictGet, if_neg hk]
    exact ih (fun q hq => h q (by simp [hq]))

theorem dictGet_cons_ne {k1 k : String} {v : Val} {rest : List (String × Val)}
    (h : k1 ≠ k) : dictGet ((k1, v) :: rest) k = dictGet rest k := by
  simp only [dictGet, if_neg h]

theorem dictGet_append_of_none {a : List (String × Val)} {k : String}
    (b : List (String × Val)) (h : dictGet a k = none) :
    dictGet (a ++ b) k = dictGet b k := by
  induction a with
  | nil => rfl
  | cons p rest ih =>
    obtain ⟨k1, v⟩ := p
    by_cases hk : k1 = k
    · rw [dictGet, if_pos hk] at h; exact absurd h (by simp)
    · rw [dictGet_cons_ne hk] at h
      rw [List.cons_append, dictGet_cons_ne hk]
      exact ih h

theorem dictGet_append_of_some {a : List (String × Val)} {k : String} {v : Val}
    (b : List (String × Val)) (h : dictGet a k = some v) :
    dictGet (a ++ b) k = some v := by
  induction a with
  | nil => exact absurd h (by simp [dictGet])
  | cons p rest ih =>
    obtain ⟨k1, w⟩ := p
    by_cases hk : k1 = k
    · rw [dictGet, if_pos hk] at h
      rw [List.cons_append, dictGet, if_pos hk]
      exact h
    · rw [dictGet_cons_ne hk] at h
      rw [List.cons_append, dictGet_cons_ne hk]
      exact ih h

theorem dictInsert_not_mem {d : List (String × Val)} {k : String} (v : Val)
    (h : ∀ p ∈ d, p.1 ≠ k) : dictInsert d k v = d ++ [(k, v)] := by
  have hany : d.any (fun p => decide (p.1 = k)) = false := by
    rw [List.any_eq_false]
    intro p hp
    simp only [decide_eq_true_eq]
    exact h p hp
  simp [dictInsert, hany]

theorem dictUpdate_eq_append : ∀ ps : List (String × Val), ∀ d : List (String × Val),
    NodupKeys ps → (∀ p ∈ ps, ∀ q ∈ d, q.1 ≠ p.1) → dictUpdate d ps = d ++ ps := by
  intro ps
  induction ps with
  | nil => intro d _ _; simp [dictUpdate]
  | cons p rest ih =>
    intro d hnd hdis
    obtain ⟨k1, v1⟩ := p
    have hins : dictInsert d k1 v1 = d ++ [(k1, v1)] :=
      dictInsert_not_mem v1 (fun q hq => hdis (k1, v1) (by simp) q hq)
    obtain ⟨hhead, htail⟩ := List.pairwise_cons.mp hnd
    show dictUpdate (dictInsert d k1 v1) rest = _
    rw [hins, ih (d ++ [(k1, v1)]) htail ?_, List.append_assoc]
    · rfl
    · intro q hq r hr
      rcases List.mem_append.mp hr with hr | hr
      · exact hdis q (by simp [hq]) r hr
      · rw [List.mem_singleton.mp hr]
        exact hhead q hq

theorem valueWrites_key (i : Nat) : ∀ j0 : Nat, ∀ xs : List Val, ∀ p : String × Val,
    p ∈ valueWrites i j0 xs → ∃ j, j0 ≤ j ∧ j < j0 + xs.length ∧ p.1 = valueIdxKey i j := by
  intro j0 xs
  induction xs generalizing j0 with
  | nil => intro p hp; simp [valueWrites] at hp
  | cons v rest ih =>
    intro p hp
    rw [valueWrites] at hp
    rcases List.mem_cons.mp hp with rfl | hp
    · exact ⟨j0, Nat.le_refl _, by simp, rfl⟩
    · obtain ⟨j, h1, h2, h3⟩ := ih (j0 + 1) p hp
      refine ⟨j, by omega, ?_, h3⟩
      simp only [List.length_cons]
      omega

theorem entryWrites_tail_key (i : Nat) (value : Val) (p : String × Val)
    (hp : p ∈ entryValueWrites i value) :
    p.1 = valueKey i ∨ ∃ j, p.1 = valueIdxKey i j := by
  cases value with
  | vList xs =>
    obtain ⟨j, _, _, h3⟩ := valueWrites_key i 0 xs p hp
    exact Or.inr ⟨j, h3⟩
  | vNull => rw [List.mem_singleton.mp hp]; exact Or.inl rfl
  | vBool b => rw [List.mem_singleton.mp hp]; exact Or.inl rfl
  | vInt n => rw [List.mem_singleton.mp hp]; exact Or.inl rfl
  | vStr s => rw [List.mem_singleton.mp hp]; exact Or.inl rfl
  | vDict kvs => rw [List.mem_singleton.mp hp]; exact Or.inl rfl

theorem writesFrom_key : ∀ params : List (String × Val), ∀ i : Nat, ∀ p : String × Val,
    p ∈ transactionWritesFrom i params →
    ∃ i', i ≤ i' ∧ i' < i + params.length ∧
      (p.1 = typeKey i' ∨ p.1 = valueKey i' ∨ ∃ j, p.1 = valueIdxKey i' j) := by
  intro params
  induction params with
  | nil => intro i p hp; simp [transactionWritesFrom] at hp
  | cons e rest ih =>
    intro i p hp
    obtain ⟨key, value⟩ := e
    rw [transactionWritesFrom] at hp
    rcases List.mem_append.mp hp with hp | hp
    · refine ⟨i, Nat.le_refl _, by simp, ?_⟩
      rw [entryWrites] at hp
      rcases List.mem_cons.mp hp with rfl | hp
      · exact Or.inl rfl
      · exact Or.inr (entryWrites_tail_key i value p hp)
    · obtain ⟨i', h1, h2, h3⟩ := ih (i + 1) p hp
      refine ⟨i', by omega, ?_, h3⟩
      simp only [List.length_cons]
      omega

/-- Shape of a parameter key generated for entry index i. -/
def KeyAt (i : Nat) (k : String) : Prop :=
  k = typeKey i ∨ k = valueKey i ∨ ∃ j, k = valueIdxKey i j

theorem keyAt_ne {i i' : Nat} {k k' : String} (hk : KeyAt i k) (hk' : KeyAt i' k')
    (hne : i ≠ i') : k ≠ k' := by
  rcases hk with rfl | rfl | ⟨j, rfl⟩ <;> rcases hk' with rfl | rfl | ⟨j', rfl⟩
  · exact fun h => hne (typeKey_inj h)
  · exact typeKey_ne_valueKey i i'
  · exact typeKey_ne_valueIdxKey i i' j'
  · exact fun h => (typeKey_ne_valueKey i' i) h.symm
  · exact fun h => hne (valueKey_inj h)
  · exact valueKey_ne_valueIdxKey i i' j'
  · exact fun h => (typeKey_ne_valueIdxKey i' i j) h.symm
  · exact fun h => (valueKey_ne_valueIdxKey i' i j) h.symm
  · exact fun h => hne (valueIdxKey_inj h).1

theorem valueWrites_nodup (i : Nat) : ∀ j0 : Nat, ∀ xs : List Val,
    NodupKeys (valueWrites i j0 xs) := by
  intro j0 xs
  induction xs generalizing j0 with
  | nil => exact List.Pairwise.nil
  | cons v rest ih =>
    rw [valueWrites]
    refine List.pairwise_cons.mpr ⟨?_, ih (j0 + 1)⟩
    intro q hq
    obtain ⟨j, h1, _, h3⟩ := valueWrites_key i (j0 + 1) rest q hq
    rw [h3]
    intro h
    have := (valueIdxKey_inj h).2
    omega

theorem entryWrites_nodup (i : Nat) (key : String) (value : Val) :
    NodupKeys (entryWrites i key value) := by
  rw [entryWrites]
  refine List.pairwise_cons.mpr ⟨?_, ?_⟩
  · intro q hq
    rcases entryWrites_tail_key i value q hq with h | ⟨j, h⟩
    · rw [h]; exact typeKey_ne_valueKey i i
    · rw [h]; exact typeKey_ne_valueIdxKey i i j
  · cases value with
    | vList xs => exact valueWrites_nodup i 0 xs
    | vNull => exact List.pairwise_singleton _ _
    | vBool b => exact List.pairwise_singleton _ _
    | vInt n => exact List.pairwise_singleton _ _
    | vStr s => exact List.pairwise_singleton _ _
    | vDict kvs => exact List.pairwise_singleton _ _

theorem entryWrites_keyAt (i : Nat) (key : String) (value : Val) (p : String × Val)
    (hp : p ∈ entryWrites i key value) : KeyAt i p.1 := by
  rw [entryWrites] at hp
  rcases List.mem_cons.mp hp with rfl | hp
  · exact Or.inl rfl
  · exact Or.inr (entryWrites_tail_key i value p hp)

theorem writesFrom_nodup : ∀ params : List (String × Val), ∀ i : Nat,
    NodupKeys (transactionWritesFrom i params) := by
  intro params
  induction params with
  | nil => intro i; exact List.Pairwise.nil
  | cons e rest ih =>
    intro i
    obtain ⟨key, value⟩ := e
    rw [transactionWritesFrom]
    refine List.pairwise_append.mpr ⟨entryWrites_nodup i key value, ih (i + 1), ?_⟩
    intro p hp q hq
    obtain ⟨i', h1, _, h3⟩ := writesFrom_key rest (i + 1) q hq
    exact keyAt_ne (entryWrites_keyAt i key value p hp) h3 (by omega)

theorem valueWrites_lookup (i : Nat) : ∀ j0 : Nat, ∀ xs : List Val, ∀ j : Nat,
    ∀ hj : j < xs.length,
    dictGet (valueWrites i j0 xs) (valueIdxKey i (j0 + j)) = some (xs.get ⟨j, hj⟩) := by
  intro j0 xs
  induction xs generalizing j0 with
  | nil => intro j hj; simp at hj
  | cons v rest ih =>
    intro j hj
    cases j with
    | zero =>
      simp [valueWrites, dictGet]
    | succ j' =>
      have hne : valueIdxKey i j0 ≠ valueIdxKey i (j0 + (j' + 1)) := by
        intro h
        have := (valueIdxKey_inj h).2
        omega
      rw [valueWrites, dictGet_cons_ne hne]
      have hj' : j' < rest.length := by
        simp only [List.length_cons] at hj
        omega
      have := ih (j0 + 1) j' hj'
      rw [show j0 + 1 + j' = j0 + (j' + 1) by omega] at this
      exact this

theorem transactionParams_eq (params : List (String × Val)) :
    dictUpdate [] (transactionWritesFrom 0 params) = transactionWritesFrom 0 params := by
  rw [dictUpdate_eq_append _ _ (writesFrom_nodup params 0) (by intro p _ q hq; simp at hq)]
  rfl

theorem raw_params_none (params : List (String × Val)) :
    create_or_edit_task_raw_params params none = transactionWritesFrom 0 params :=
  transactionParams_eq params

theorem raw_params_zero (params : List (String × Val)) :
    create_or_edit_task_raw_params params (some 0) = transactionWritesFrom 0 params :=
  transactionParams_eq params

theorem writesFrom_key_special (params : List (String × Val)) (p : String × Val)
    (hp : p ∈ transactionWritesFrom 0 params) :
    p.1 ≠ "api.token" ∧ p.1 ≠ "output" ∧ p.1 ≠ "objectIdentifier" := by
  obtain ⟨i', _, _, h3⟩ := writesFrom_key params 0 p hp
  rcases h3 with h | h | ⟨j, h⟩ <;> rw [h]
  · exact ⟨typeKey_ne_apiToken i', typeKey_ne_output i', typeKey_ne_objId i'⟩
  · exact ⟨valueKey_ne_apiToken i', valueKey_ne_output i', valueKey_ne_objId i'⟩
  · exact ⟨valueIdxKey_ne_apiToken i' j, valueIdxKey_ne_output i' j, valueIdxKey_ne_objId i' j⟩

theorem raw_params_some (params : List (String × Val)) (tid : Int) (h : tid ≠ 0) :
    create_or_edit_task_raw_params params (some tid) =
      transactionWritesFrom 0 params ++ [("objectIdentifier", Val.vInt tid)] := by
  show (if tid != 0 then dictInsert (dictUpdate [] _) _ _ else _) = _
  rw [if_pos (bne_iff_ne.mpr h), transactionParams_eq]
  exact dictInsert_not_mem _ (fun p hp => (writesFrom_key_special params p hp).2.2)

theorem body_of_writes (token : String) (params : List (String × Val)) :
    make_request_body token (transactionWritesFrom 0 params) =
      ("api.token", Val.vStr token) :: ("output", Val.vStr "json") ::
        transactionWritesFrom 0 params := by
  show dictUpdate _ _ = _
  rw [dictUpdate_eq_append _ _ (writesFrom_nodup params 0) ?_]
  · rfl
  · intro p hp q hq
    have hs := writesFrom_key_special params p hp
    simp only [List.mem_cons, List.not_mem_nil, or_false] at hq
    rcases hq with rfl | rfl
    · exact fun he => hs.1 he.symm
    · exact fun he => hs.2.1 he.symm

theorem create_body_none (token : String) (params : List (String × Val)) :
    make_request_body token (create_or_edit_task_raw_params params none) =
      ("api.token", Val.vStr token) :: ("output", Val.vStr "json") ::
        transactionWritesFrom 0 params := by
  rw [raw_params_none, body_of_writes]

theorem create_body_zero (token : String) (params : List (String × Val)) :
    make_request_body token (create_or_edit_task_raw_params params (some 0)) =
      ("api.token", Val.vStr token) :: ("output", Val.vStr "json") ::
        transactionWritesFrom 0 params := by
  rw [raw_params_zero, body_of_writes]

theorem create_body_some (token : String) (params : List (String × Val)) (tid : Int)
    (h : tid ≠ 0) :
    make_request_body token (create_or_edit_task_raw_params params (some tid)) =
      ("api.token", Val.vStr token) :: ("output", Val.vStr "json") ::
        (transactionWritesFrom 0 params ++ [("objectIdentifier", Val.vInt tid)]) := by
  have hnd : NodupKeys (transactionWritesFrom 0 params ++ [("objectIdentifier", Val.vInt tid)]) := by
    refine List.pairwise_append.mpr ⟨writesFrom_nodup params 0, List.pairwise_singleton _ _, ?_⟩
    intro p hp q hq
    rw [List.mem_singleton.mp hq]
    exact (writesFrom_key_special params p hp).2.2
  have hdis : ∀ p ∈ transactionWritesFrom 0 params ++ [("objectIdentifier", Val.vInt tid)],
      ∀ q ∈ [(("api.token" : String), Val.vStr token), ("output", Val.vStr "json")], q.1 ≠ p.1 := by
    intro p hp q hq
    simp only [List.mem_cons, List.not_mem_nil, or_false] at hq
    rcases List.mem_append.mp hp with hp | hp
    · have hs := writesFrom_key_special params p hp
      rcases hq with rfl | rfl
      · exact fun he => hs.1 he.symm
      · exact fun he => hs.2.1 he.symm
    · rw [List.mem_singleton.mp hp]
      rcases hq with rfl | rfl
      · exact (by decide : ("api.token" : String) ≠ "objectIdentifier")
      · exact (by decide : ("output" : String) ≠ "objectIdentifier")
  rw [raw_params_some params tid h]
  show dictUpdate _ _ = _
  rw [dictUpdate_eq_append _ _ hnd hdis]
  rfl

theorem writesFrom_append : ∀ xs ys : List (String × Val), ∀ i : Nat,
    transactionWritesFrom i (xs ++ ys) =
      transactionWritesFrom i xs ++ transactionWritesFrom (i + xs.length) ys := by
  intro xs
  induction xs with
  | nil => intro ys i; simp [transactionWritesFrom]
  | cons e rest ih =>
    intro ys i
    obtain ⟨key, value⟩ := e
    rw [List.cons_append, transactionWritesFrom, transactionWritesFrom, ih ys (i + 1),
      List.append_assoc, List.length_cons]
    rw [show i + 1 + rest.length = i + (rest.length + 1) from by omega]

theorem entryValueWrites_list (i : Nat) (xs : List Val) :
    entryValueWrites i (Val.vList xs) = valueWrites i 0 xs := rfl

theorem dictGet_create_body {token : String} {params : List (String × Val)}
    {tid : Option Int} {k : String} (hk1 : k ≠ "api.token") (hk2 : k ≠ "output")
    (hk3 : k ≠ "objectIdentifier") :
    dictGet (make_request_body token (create_or_edit_task_raw_params params tid)) k =
      dictGet (transactionWritesFrom 0 params) k := by
  match tid with
  | none =>
    rw [create_body_none, dictGet_cons_ne (Ne.symm hk1), dictGet_cons_ne (Ne.symm hk2)]
  | some tid =>
    by_cases h0 : tid = 0
    · subst h0
      rw [create_body_zero, dictGet_cons_ne (Ne.symm hk1), dictGet_cons_ne (Ne.symm hk2)]
    · rw [create_body_some token params tid h0, dictGet_cons_ne (Ne.symm hk1),
        dictGet_cons_ne (Ne.symm hk2)]
      cases h : dictGet (transactionWritesFrom 0 params) k with
      | some v => exact dictGet_append_of_some _ h
      | none =>
        rw [dictGet_append_of_none _ h, dictGet_cons_ne (Ne.symm hk3)]
        rfl

theorem ws_valueIdx_lookup (pre post : List (String × Val)) (key : String) (vs : List Val)
    (j : Nat) (hj : j < vs.length) :
    dictGet (transactionWritesFrom 0 (pre ++ (key, Val.vList vs) :: post))
      (valueIdxKey pre.length j) = some (vs.get ⟨j, hj⟩) := by
  rw [writesFrom_append]
  simp only [Nat.zero_add]
  rw [transactionWritesFrom, entryWrites, entryValueWrites_list]
  have hA : dictGet (transactionWritesFrom 0 pre) (valueIdxKey pre.length j) = none := by
    apply dictGet_eq_none
    intro p hp
    obtain ⟨i', _, hlt, h3⟩ := writesFrom_key pre 0 p hp
    exact keyAt_ne h3 (Or.inr (Or.inr ⟨j, rfl⟩)) (by omega)
  rw [dictGet_append_of_none _ hA, List.cons_append,
    dictGet_cons_ne (typeKey_ne_valueIdxKey pre.length pre.length j)]
  have hB := valueWrites_lookup pre.length 0 vs j hj
  rw [Nat.zero_add] at hB
  exact dictGet_append_of_some _ hB

theorem ws_valueKey_none (pre post : List (String × Val)) (key : String) (vs : List Val) :
    dictGet (transactionWritesFrom 0 (pre ++ (key, Val.vList vs) :: post))
      (valueKey pre.length) = none := by
  rw [writesFrom_append]
  simp only [Nat.zero_add]
  rw [transactionWritesFrom, entryWrites, entryValueWrites_list]
  apply dictGet_eq_none
  intro p hp
  rcases List.mem_append.mp hp with hp | hp
  · obtain ⟨i', _, hlt, h3⟩ := writesFrom_key pre 0 p hp
    exact keyAt_ne h3 (Or.inr (Or.inl rfl)) (by omega)
  rcases List.mem_append.mp hp with hp | hp
  · rcases List.mem_cons.mp hp with rfl | hp
    · exact typeKey_ne_valueKey pre.length pre.length
    · obtain ⟨j, _, _, h3⟩ := valueWrites_key pre.length 0 vs p hp
      rw [h3]
      exact fun he => (valueKey_ne_valueIdxKey pre.length pre.length j) he.symm
  · obtain ⟨i', hge, _, h3⟩ := writesFrom_key post (pre.length + 1) p hp
    exact keyAt_ne h3 (Or.inr (Or.inl rfl)) (by omega)

/-- C9: calling create_or_edit_task with task id 0 behaves exactly like a
call with no task id — the raw params coincide and the request body contains
no objectIdentifier key, so the request is a create, not an edit of task 0. -/
theorem C9_task_id_zero_is_create (token : String) (params : List (String × Val)) :
    create_or_edit_task_raw_params params (some 0) =
      create_or_edit_task_raw_params params none
    ∧ dictGet (make_request_body token (create_or_edit_task_raw_params params (some 0)))
        "objectIdentifier" = none := by
  refine ⟨by rw [raw_params_zero, raw_params_none], ?_⟩
  rw [create_body_zero, dictGet_cons_ne (by decide), dictGet_cons_ne (by decide)]
  exact dictGet_eq_none (fun p hp => (writesFrom_key_special params p hp).2.2)

/-- C2 as stated is false at task id 0: with params status=resolved and the
given task id 0, the encoded request body contains no objectIdentifier key,
although a task id was given. -/
theorem C2_counterexample :
    dictGet (make_request_body "api-token"
      (create_or_edit_task_raw_params [("status", Val.vStr "resolved")] (some 0)))
      "objectIdentifier" = none := rfl

/-- C2 amended: a nonzero task id is included as the objectIdentifier edit
target, no task id yields no objectIdentifier key, and the concrete
status=resolved instances hold as stated (including task id 42). -/
theorem C2_edit_target (token : String) (params : List (String × Val)) (tid : Int)
    (h : tid ≠ 0) :
    dictGet (make_request_body token (create_or_edit_task_raw_params params (some tid)))
        "objectIdentifier" = some (Val.vInt tid)
    ∧ dictGet (make_request_body token (create_or_edit_task_raw_params params none))
        "objectIdentifier" = none
    ∧ dictGet (make_request_body token
        (create_or_edit_task_raw_params [("status", Val.vStr "resolved")] none))
        "transactions[0][type]" = some (Val.vStr "status")
    ∧ dictGet (make_request_body token
        (create_or_edit_task_raw_params [("status", Val.vStr "resolved")] none))
        "transactions[0][value]" = some (Val.vStr "resolved")
    ∧ dictGet (make_request_body token
        (create_or_edit_task_raw_params [("status", Val.vStr "resolved")] (some 42)))
        "objectIdentifier" = some (Val.vInt 42) := by
  refine ⟨?_, ?_, rfl, rfl, rfl⟩
  · rw [create_body_some token params tid h, dictGet_cons_ne (by decide),
      dictGet_cons_ne (by decide),
      dictGet_append_of_none _
        (dictGet_eq_none (fun p hp => (writesFrom_key_special params p hp).2.2))]
    rfl
  · rw [create_body_none, dictGet_cons_ne (by decide), dictGet_cons_ne (by decide)]
    exact dictGet_eq_none (fun p hp => (writesFrom_key_special params p hp).2.2)

/-- Witness for C2_edit_target at a concrete token, params and task id 7. -/
theorem C2_edit_target_witness :
    (7 : Int) ≠ 0 ∧
      dictGet (make_request_body "tok"
        (create_or_edit_task_raw_params [("priority", Val.vStr "high")] (some 7)))
        "objectIdentifier" = some (Val.vInt 7) :=
  ⟨by decide, (C2_edit_target "tok" [("priority", Val.vStr "high")] 7 (by decide)).1⟩

/-- C4: a sequence-valued params entry at position i expands into indexed
sub-entries — the body maps transactions[i][value][j] to the j-th element
and holds no plain transactions[i][value] key — and the concrete
subscribers instance produces PHID-A at index 0 and PHID-B at index 1. -/
theorem C4_sequence_expansion (token : String) (pre post : List (String × Val))
    (key : String) (vs : List Val) (tid : Option Int) (j : Nat) (hj : j < vs.length) :
    dictGet (make_request_body token
        (create_or_edit_task_raw_params (pre ++ (key, Val.vList vs) :: post) tid))
        (valueIdxKey pre.length j) = some (vs.get ⟨j, hj⟩)
    ∧ dictGet (make_request_body token
        (create_or_edit_task_raw_params (pre ++ (key, Val.vList vs) :: post) tid))
        (valueKey pre.length) = none
    ∧ dictGet (make_request_body token
        (create_or_edit_task_raw_params
          [("subscribers", Val.vList [Val.vStr "PHID-A", Val.vStr "PHID-B"])] none))
        "transactions[0][value][0]" = some (Val.vStr "PHID-A")
    ∧ dictGet (make_request_body token
        (create_or_edit_task_raw_params
          [("subscribers", Val.vList [Val.vStr "PHID-A", Val.vStr "PHID-B"])] none))
        "transactions[0][value][1]" = some (Val.vStr "PHID-B") := by
  refine ⟨?_, ?_, rfl, rfl⟩
  · rw [dictGet_create_body (valueIdxKey_ne_apiToken _ _) (valueIdxKey_ne_output _ _)
      (valueIdxKey_ne_objId _ _)]
    exact ws_valueIdx_lookup pre post key vs j hj
  · rw [dictGet_create_body (valueKey_ne_apiToken _) (valueKey_ne_output _)
      (valueKey_ne_objId _)]
    exact ws_valueKey_none pre post key vs

/-- Witness for C4_sequence_expansion at the concrete subscribers call. -/
theorem C4_sequence_expansion_witness :
    (0 : Nat) < 2 ∧
      dictGet (make_request_body "tok"
        (create_or_edit_task_raw_params
          ([] ++ ("subscribers", Val.vList [Val.vStr "PHID-A", Val.vStr "PHID-B"]) :: []) none))
        (valueIdxKey 0 0) = some (Val.vStr "PHID-A") :=
  ⟨by decide,
    (C4_sequence_expansion "tok" [] [] "subscribers"
      [Val.vStr "PHID-A", Val.vStr "PHID-B"] none 0 (by decide)).1⟩

/-- C10: show_projects with an empty sequence of project identifiers builds
an empty params dict, so the request body holds exactly the token and output
parameters and no constraint parameters at all. -/
theorem C10_show_projects_empty (token : String) :
    show_projects_raw_params [] = []
    ∧ make_request_body token (show_projects_raw_params []) =
        [("api.token", Val.vStr token), ("output", Val.vStr "json")] :=
  ⟨rfl, rfl⟩

theorem handle_response_transport {resp : HttpResponse}
    (hst : raise_for_status_fails resp.status = true) :
    handle_response resp = Except.error (PyErr.transport resp.status) := by
  unfold handle_response
  rw [if_pos hst]

theorem handle_response_checked {resp : HttpResponse} {kvs : List (String × Val)} {ec : Val}
    (hst : raise_for_status_fails resp.status = false)
    (hbody : resp.body = Val.vDict kvs)
    (hec : dictGet kvs "error_code" = some ec) :
    handle_response resp =
      if truthy ec then Except.error (PyErr.api resp.body) else Except.ok resp.body := by
  obtain ⟨st, body⟩ := resp
  simp only at hst hbody
  subst hbody
  unfold handle_response
  simp only [hst, Bool.false_eq_true, if_false]
  rw [hec]

theorem handle_response_missing_code {resp : HttpResponse} {kvs : List (String × Val)}
    (hst : raise_for_status_fails resp.status = false)
    (hbody : resp.body = Val.vDict kvs)
    (hec : dictGet kvs "error_code" = none) :
    handle_response resp = Except.error (PyErr.keyError "error_code") := by
  obtain ⟨st, body⟩ := resp
  simp only at hst hbody
  subst hbody
  unfold handle_response
  simp only [hst, Bool.false_eq_true, if_false]
  rw [hec]

/-- C1 as stated is false: a response with HTTP status 500 whose decoded body
has a truthy error-code field makes the call raise the wrapped transport
failure from the status check, not an API-level failure carrying the body. -/
theorem C1_counterexample :
    _make_request (constRemote ⟨500, Val.vDict [("error_code", Val.vStr "ERR-CONDUIT")]⟩)
      "tok" "maniphest.search" [] = Except.error (PyErr.transport 500) := rfl

/-- C1 amended: when the response status does not trigger the HTTP error
check, a truthy error-code field makes _make_request raise the API-level
failure carrying the full decoded body; on statuses in the 400 to 599 range
the call raises the transport failure instead, whatever the body. -/
theorem C1_api_error (remote : Remote) (token path : String)
    (params kvs : List (String × Val)) (resp : HttpResponse) (ec : Val)
    (hresp : remote path (make_request_body token params) = resp)
    (hst : raise_for_status_fails resp.status = false)
    (hbody : resp.body = Val.vDict kvs)
    (hec : dictGet kvs "error_code" = some ec) (ht : truthy ec = true) :
    _make_request remote token path params = Except.error (PyErr.api resp.body)
    ∧ ∀ remote2 : Remote,
        raise_for_status_fails (remote2 path (make_request_body token params)).status = true →
        _make_request remote2 token path params =
          Except.error (PyErr.transport (remote2 path (make_request_body token params)).status) := by
  constructor
  · show handle_response _ = _
    rw [hresp, handle_response_checked hst hbody hec, if_pos ht]
  · intro remote2 h2
    exact handle_response_transport h2

/-- Witness for C1_api_error: an HTTP 200 response carrying a truthy error
code raises the API-level failure with the full body. -/
theorem C1_api_error_witness :
    raise_for_status_fails 200 = false ∧
      _make_request (constRemote ⟨200, Val.vDict [("error_code", Val.vStr "ERR-CONDUIT")]⟩)
        "tok" "user.whoami" [] =
        Except.error (PyErr.api (Val.vDict [("error_code", Val.vStr "ERR-CONDUIT")])) :=
  ⟨rfl,
    (C1_api_error (constRemote ⟨200, Val.vDict [("error_code", Val.vStr "ERR-CONDUIT")]⟩)
      "tok" "user.whoami" [] [("error_code", Val.vStr "ERR-CONDUIT")]
      ⟨200, Val.vDict [("error_code", Val.vStr "ERR-CONDUIT")]⟩ (Val.vStr "ERR-CONDUIT")
      rfl rfl rfl rfl rfl).1⟩

/-- C3 as stated is false: an HTTP-successful response whose body lacks the
error-code field entirely raises an escaped key lookup error instead of
being treated as success. -/
theorem C3_counterexample :
    _make_request (constRemote ⟨200, Val.vDict [("result", Val.vNull)]⟩)
      "tok" "user.whoami" [] = Except.error (PyErr.keyError "error_code") := rfl

/-- C3 amended: for an HTTP-successful response whose body is a mapping, the
call returns the decoded body exactly when the error-code field is present
and falsy; when the field is absent the call raises a key lookup error
rather than succeeding. -/
theorem C3_success_iff (remote : Remote) (token path : String)
    (params kvs : List (String × Val)) (resp : HttpResponse)
    (hresp : remote path (make_request_body token params) = resp)
    (hst : raise_for_status_fails resp.status = false)
    (hbody : resp.body = Val.vDict kvs) :
    (_make_request remote token path params = Except.ok resp.body ↔
      ∃ ec, dictGet kvs "error_code" = some ec ∧ truthy ec = false)
    ∧ (dictGet kvs "error_code" = none →
        _make_request remote token path params = Except.error (PyErr.keyError "error_code")) := by
  have hmr : _make_request remote token path params = handle_response resp := by
    show handle_response _ = _
    rw [hresp]
  constructor
  · constructor
    · intro h
      rw [hmr] at h
      cases hec : dictGet kvs "error_code" with
      | none => rw [handle_response_missing_code hst hbody hec] at h; exact absurd h (by simp)
      | some ec =>
        rw [handle_response_checked hst hbody hec] at h
        cases ht : truthy ec with
        | true => rw [ht, if_pos rfl] at h; exact absurd h (by simp)
        | false => exact ⟨ec, rfl, ht⟩
    · rintro ⟨ec, hec, ht⟩
      rw [hmr, handle_response_checked hst hbody hec, if_neg (by simp [ht])]
  · intro hec
    rw [hmr]
    exact handle_response_missing_code hst hbody hec

/-- Witness for C3_success_iff: a null error code is falsy, so the call
succeeds with the decoded body. -/
theorem C3_success_iff_witness :
    raise_for_status_fails 200 = false ∧
      _make_request (constRemote ⟨200, okBody []⟩) "tok" "user.whoami" [] =
        Except.ok (okBody []) :=
  ⟨rfl,
    ((C3_success_iff (constRemote ⟨200, okBody []⟩) "tok" "user.whoami" []
        [("error_code", Val.vNull), ("result", Val.vDict [("data", Val.vList [])])]
        ⟨200, okBody []⟩ rfl rfl rfl).1).mpr ⟨Val.vNull, rfl, rfl⟩⟩

/-- C8 as stated is false: the URL consisting of one slash is non-empty, the
token is non-empty, and yet construction fails, because the stored base URL
is the input with trailing slashes stripped, which is empty here. -/
theorem C8_counterexample :
    ("/" : String) ≠ "" ∧ ("secret" : String) ≠ "" ∧
      client_init ⟨"/", "secret"⟩ = InitResult.valueError :=
  ⟨by decide, by decide, rfl⟩

/-- C8 amended: construction succeeds, storing the URL with trailing slashes
stripped together with the token, exactly when that stripped URL and the
token are both non-empty; otherwise it fails with the configuration error. -/
theorem C8_init (cfg : ClientConfig) :
    (rstrip_slash cfg.url ≠ "" → cfg.token ≠ "" →
      client_init cfg = InitResult.ok (rstrip_slash cfg.url) cfg.token)
    ∧ (rstrip_slash cfg.url = "" ∨ cfg.token = "" →
      client_init cfg = InitResult.valueError) := by
  constructor
  · intro h1 h2
    show (if _ then _ else _) = _
    rw [if_neg]
    intro h
    rcases h with h | h
    · exact h1 h
    · exact h2 h
  · intro h
    show (if _ then _ else _) = _
    rw [if_pos h]

/-- Witness for C8_init at a concrete URL with one trailing slash. -/
theorem C8_init_witness :
    rstrip_slash "https://phab.example/" ≠ "" ∧ ("secret" : String) ≠ "" ∧
      client_init ⟨"https://phab.example/", "secret"⟩ =
        InitResult.ok "https://phab.example" "secret" := by
  refine ⟨by decide, by decide, ?_⟩
  have h := (C8_init ⟨"https://phab.example/", "secret"⟩).1 (by decide) (by decide)
  exact h

/-- C7: find_parent_task and find_user_by_username return none for an empty
remote result set — a normal, non-error outcome — and exactly the first
element for a non-empty one. -/
theorem C7_first_or_none (remote : Remote) (token : String) (subtask_id : Int)
    (username : String) (bodyx bodyy : Val) (xs ys : List Val)
    (hx1 : _make_request remote token "maniphest.search"
        [("constraints[subtaskIDs][0]", Val.vInt subtask_id)] = Except.ok bodyx)
    (hx2 : resultData bodyx = Except.ok xs)
    (hy1 : _make_request remote token "user.search"
        [("constraints[usernames][0]", Val.vStr username)] = Except.ok bodyy)
    (hy2 : resultData bodyy = Except.ok ys) :
    (xs = [] → find_parent_task remote token subtask_id = Except.ok none)
    ∧ (∀ x rest, xs = x :: rest →
        find_parent_task remote token subtask_id = Except.ok (some x))
    ∧ (ys = [] → find_user_by_username remote token username = Except.ok none)
    ∧ (∀ y rest, ys = y :: rest →
        find_user_by_username remote token username = Except.ok (some y)) := by
  have hfp : find_parent_task remote token subtask_id = Except.ok (_first xs) := by
    unfold find_parent_task
    rw [hx1]
    dsimp only [Bind.bind, Except.bind]
    rw [hx2]
  have hfu : find_user_by_username remote token username = Except.ok (_first ys) := by
    unfold find_user_by_username
    rw [hy1]
    dsimp only [Bind.bind, Except.bind]
    rw [hy2]
  refine ⟨?_, ?_, ?_, ?_⟩
  · intro hxe; rw [hxe] at hfp; exact hfp
  · intro x rest hxe; rw [hxe] at hfp; exact hfp
  · intro hye; rw [hye] at hfu; exact hfu
  · intro y rest hye; rw [hye] at hfu; exact hfu

/-- Witness for C7_first_or_none: an empty result set yields none. -/
theorem C7_first_or_none_witness :
    find_parent_task (constRemote ⟨200, okBody []⟩) "tok" 5 = Except.ok none :=
  ((C7_first_or_none (constRemote ⟨200, okBody []⟩) "tok" 5 "alice"
      (okBody []) (okBody []) [] [] rfl rfl rfl rfl).1) rfl

theorem cacheGet_append_self (xs : List (String × Option Val)) (k : String) (v : Option Val)
    (h : cacheGet xs k = none) : cacheGet (xs ++ [(k, v)]) k = some v := by
  induction xs with
  | nil => simp [cacheGet]
  | cons p rest ih =>
    obtain ⟨k1, w⟩ := p
    by_cases hk : k1 = k
    · rw [cacheGet, if_pos hk] at h
      exact absurd h (by simp)
    · rw [cacheGet, if_neg hk] at h
      rw [List.cons_append, cacheGet, if_neg hk]
      exact ih h

/-- C5: once show_user has returned successfully, a second call with the same
identifier on the same client is answered from the memoized cache: it makes
no further request, leaves the state unchanged, and returns the identical
result — including when the memoized result is the absence of a user — so
the two calls together perform at most one request. -/
theorem C5_show_user_memoized (remote : Remote) (token : String) (st st1 : ClientState)
    (phid : String) (u : Option Val)
    (h : show_user remote token st phid = (Except.ok u, st1)) :
    show_user remote token st1 phid = (Except.ok u, st1)
    ∧ st1.request_count ≤ st.request_count + 1 := by
  unfold show_user at h
  cases hc : cacheGet st.user_cache phid with
  | some cached =>
    rw [hc] at h
    dsimp only at h
    rw [Prod.mk.injEq] at h
    obtain ⟨h1, h2⟩ := h
    injection h1 with h1
    subst h1
    subst h2
    refine ⟨?_, Nat.le_succ _⟩
    unfold show_user
    rw [hc]
  | none =>
    rw [hc] at h
    cases hu : show_user_uncached remote token phid with
    | ok user =>
      rw [hu] at h
      dsimp only at h
      rw [Prod.mk.injEq] at h
      obtain ⟨h1, h2⟩ := h
      injection h1 with h1
      subst h1
      subst h2
      constructor
      · unfold show_user
        dsimp only
        rw [cacheGet_append_self st.user_cache phid user hc]
      · exact Nat.le_refl _
    | error e =>
      rw [hu] at h
      dsimp only at h
      rw [Prod.mk.injEq] at h
      obtain ⟨h1, _⟩ := h
      exact absurd h1 (by simp)

/-- Witness for C5_show_user_memoized: a first call that found no user is
memoized, and the second call returns the same absence from the cache. -/
theorem C5_show_user_memoized_witness :
    show_user (constRemote ⟨200, okBody []⟩) "tok"
        ⟨[("PHID-U1", none)], 1⟩ "PHID-U1" =
      (Except.ok none, ⟨[("PHID-U1", none)], 1⟩)
    ∧ (⟨[("PHID-U1", none)], 1⟩ : ClientState).request_count ≤
        (⟨[], 0⟩ : ClientState).request_count + 1 :=
  C5_show_user_memoized (constRemote ⟨200, okBody []⟩) "tok"
    ⟨[], 0⟩ ⟨[("PHID-U1", none)], 1⟩ "PHID-U1" none rfl

theorem pyIndex_dict_some {kvs : List (String × Val)} {k : String} {v : Val}
    (h : dictGet kvs k = some v) : pyIndex (Val.vDict kvs) k = Except.ok v := by
  simp [pyIndex, h]

theorem milestone_scan_eq : ∀ columns : List Val, columns.all wellFormedColumn = true →
    milestone_scan columns = Except.ok (List.find? milestonePred columns) := by
  intro columns
  induction columns with
  | nil => intro _; rfl
  | cons c rest ih =>
    intro hwf
    rw [List.all_cons, Bool.and_eq_true] at hwf
    obtain ⟨hc, hrest⟩ := hwf
    cases c with
    | vNull => exact absurd hc (by simp [wellFormedColumn])
    | vBool b => exact absurd hc (by simp [wellFormedColumn])
    | vInt n => exact absurd hc (by simp [wellFormedColumn])
    | vStr s => exact absurd hc (by simp [wellFormedColumn])
    | vList l => exact absurd hc (by simp [wellFormedColumn])
    | vDict kvs =>
      cases hf : dictGet kvs "fields" with
      | none => rw [wellFormedColumn, hf] at hc; exact absurd hc (by simp)
      | some fv =>
        cases fv with
        | vDict f =>
          have hc2 : ((dictGet f "proxyPHID").isSome && (dictGet f "isHidden").isSome) = true := by
            rw [wellFormedColumn, hf] at hc
            exact hc
          rw [Bool.and_eq_true] at hc2
          obtain ⟨hp1, hh1⟩ := hc2
          obtain ⟨p, hp⟩ := Option.isSome_iff_exists.mp hp1
          obtain ⟨hd, hh⟩ := Option.isSome_iff_exists.mp hh1
          have hpred : milestonePred (Val.vDict kvs) = (truthy p && !truthy hd) := by
            simp only [milestonePred, hf, hp, hh]
          rw [milestone_scan, pyIndex_dict_some hf]
          dsimp only [Bind.bind, Except.bind]
          rw [pyIndex_dict_some hp]
          dsimp only [Bind.bind, Except.bind]
          cases htp : truthy p with
          | false =>
            rw [if_neg (by simp), ih hrest,
              List.find?_cons_of_neg _ (by simp [hpred, htp])]
          | true =>
            rw [if_pos rfl, pyIndex_dict_some hh]
            dsimp only [Bind.bind, Except.bind]
            cases hth : truthy hd with
            | true =>
              rw [if_pos rfl, ih hrest,
                List.find?_cons_of_neg _ (by simp [hpred, htp, hth])]
            | false =>
              rw [if_neg (by simp),
                List.find?_cons_of_pos _ (by simp [hpred, htp, hth])]
        | vNull => rw [wellFormedColumn, hf] at hc; exact absurd hc (by simp)
        | vBool b => rw [wellFormedColumn, hf] at hc; exact absurd hc (by simp)
        | vInt n => rw [wellFormedColumn, hf] at hc; exact absurd hc (by simp)
        | vStr s => rw [wellFormedColumn, hf] at hc; exact absurd hc (by simp)
        | vList l => rw [wellFormedColumn, hf] at hc; exact absurd hc (by simp)

/-- C6: get_project_current_milestone returns the first column, in the order
of the remote column listing, whose fields mark it as a subproject proxy and
not hidden, and none when no listed column qualifies — provided every listed
column carries the two consulted fields. -/
theorem C6_milestone (remote : Remote) (token : String) (project_phid : String)
    (columns : List Val)
    (hcols : list_project_columns remote token project_phid = Except.ok columns)
    (hwf : columns.all wellFormedColumn = true) :
    get_project_current_milestone remote token project_phid =
      Except.ok (List.find? milestonePred columns) := by
  unfold get_project_current_milestone
  rw [hcols]
  dsimp only [Bind.bind, Except.bind]
  exact milestone_scan_eq columns hwf

/-- Witness for C6_milestone: the hidden-free proxy column in the listing is
returned as the current milestone. -/
theorem C6_milestone_witness :
    get_project_current_milestone
      (constRemote ⟨200, okBody
        [Val.vDict [("fields", Val.vDict
            [("proxyPHID", Val.vNull), ("isHidden", Val.vBool false)])],
         Val.vDict [("fields", Val.vDict
            [("proxyPHID", Val.vStr "PHID-MILESTONE"), ("isHidden", Val.vBool false)])]]⟩)
      "tok" "PHID-PROJ" =
      Except.ok (some (Val.vDict [("fields", Val.vDict
        [("proxyPHID", Val.vStr "PHID-MILESTONE"), ("isHidden", Val.vBool false)])])) :=
  C6_milestone _ "tok" "PHID-PROJ"
    [Val.vDict [("fields", Val.vDict
        [("proxyPHID", Val.vNull), ("isHidden", Val.vBool false)])],
     Val.vDict [("fields", Val.vDict
        [("proxyPHID", Val.vStr "PHID-MILESTONE"), ("isHidden", Val.vBool false)])]]
    rfl rfl

end Phable
